import Mathlib

/-!
# Verification of the saferustcl_suite buffer phase model and harness code

Shallow embedding of `crates/hpc-core`:
* the phase tags of `src/buffer/state.rs` (three sealed marker types) become a
  closed inductive type `Phase`;
* the `GpuBuffer` / `Guard` / `PendingHandle` submission protocol is not among
  the provided source files (only its callers in `examples/vec_add.rs` are), so
  it is modelled from the specification (sections 4.2, 4.3, 7, 9: dynamic
  phase field, epoch-bound single-use guards, fail-closed transitions);
* the metrics aggregator of `src/metrics.rs` (u128 latencies embedded as `ℕ`,
  the f64 throughput arithmetic embedded as exact rationals `ℚ`);
* the synthetic conflict-simulation harness of `examples/stm_abort.rs`
  (u64 arithmetic embedded as `ℕ` with explicit `% 2 ^ 64`, f32 draw
  arithmetic embedded as exact rationals `ℚ`).
-/

namespace SafeRustCL

/-- Embedding of `src/buffer/state.rs`: the three sealed marker types
`Queued`, `InFlight`, `Ready` become the constructors of one closed inductive
type; closedness of the inductive is the embedding of the sealed-trait
pattern (no external code can add a constructor). -/
inductive Phase where
  | Queued
  | InFlight
  | Ready
  deriving DecidableEq, Repr

/-- Modelled from the spec: error taxonomy of section 7 for buffer-level
operations (`AllocationFailed`, `SizeMismatch`, `AlreadyPending`, `NotReady`). -/
inductive BufferError where
  | AllocationFailed
  | SizeMismatch
  | AlreadyPending
  | NotReady
  deriving DecidableEq, Repr

/-- Modelled from the spec: error taxonomy of section 7 for guard resolution
(`GuardMismatch`, `DoubleCompletion`, `BackendOperationFailed`). -/
inductive GuardError where
  | GuardMismatch
  | DoubleCompletion
  | BackendOperationFailed
  deriving DecidableEq, Repr

/-- Modelled from the spec: the Buffer entity of section 3 (opaque device
resource handle, immutable byte size, current phase, submission epoch).  The
phase is a runtime-checked tagged field, per the design note of section 9 for
implementations without type-level gating. -/
structure GpuBuffer where
  handle : Nat
  size : Nat
  phase : Phase
  epoch : Nat
  deriving DecidableEq, Repr

/-- Modelled from the spec: a Completion Guard carries the submission epoch
binding it to the exact submission it was issued for (section 3). -/
structure Guard where
  epoch : Nat
  deriving DecidableEq, Repr

/-- Modelled from the spec: a Pending Handle pairs the buffer (logically
`InFlight`) with the epoch of its outstanding submission and the consumed
flag of the design note in section 9 (single-use guards need an explicit
resolved flag checked on every resolve attempt). -/
structure PendingHandle where
  buf : GpuBuffer
  epoch : Nat
  resolved : Bool
  deriving DecidableEq, Repr

/-- Modelled from the spec: `allocate(context, size_bytes) -> Buffer(Queued)`
(section 4.2); the backend is abstracted away, `size_bytes = 0` is accepted.
The fresh buffer starts in phase `Queued` with epoch 0. -/
def allocate (handle size : Nat) : GpuBuffer :=
  { handle := handle, size := size, phase := Phase.Queued, epoch := 0 }

/-- Modelled from the spec: `raw_handle(Buffer(Ready)) -> ResourceHandle`
(section 4.2), enforced by a runtime check that fails with `NotReady`
whenever the phase is not `Ready`. -/
def raw_handle (b : GpuBuffer) : Except BufferError Nat :=
  if b.phase = Phase.Ready then Except.ok b.handle
  else Except.error BufferError.NotReady

/-- Modelled from the spec: `submit_transfer` (section 4.3).  A buffer that
already has an outstanding submission (phase `InFlight`) is rejected with
`AlreadyPending` before anything else happens; a payload larger than the
allocated size is rejected with `SizeMismatch`; otherwise a fresh epoch is
minted and a Pending Handle plus its matching Guard are returned.  `Queued`
is treated as an alias of `Ready` for submission eligibility. -/
def submit_transfer (b : GpuBuffer) (payloadLen : Nat) :
    Except BufferError (PendingHandle × Guard) :=
  if b.phase = Phase.InFlight then Except.error BufferError.AlreadyPending
  else if b.size < payloadLen then Except.error BufferError.SizeMismatch
  else
    Except.ok
      ({ buf := { b with phase := Phase.InFlight, epoch := b.epoch + 1 },
         epoch := b.epoch + 1, resolved := false },
       { epoch := b.epoch + 1 })

/-- Modelled from the spec: `submit_kernel_use` (section 4.3), identical
protocol to `submit_transfer` without a payload. -/
def submit_kernel_use (b : GpuBuffer) :
    Except BufferError (PendingHandle × Guard) :=
  if b.phase = Phase.InFlight then Except.error BufferError.AlreadyPending
  else
    Except.ok
      ({ buf := { b with phase := Phase.InFlight, epoch := b.epoch + 1 },
         epoch := b.epoch + 1, resolved := false },
       { epoch := b.epoch + 1 })

/-- Modelled from the spec: `resolve(PendingHandle) -> Result<Buffer(Ready),
GuardError>` (section 4.3).  The consumed flag is checked first (resolving an
already-resolved Guard fails with `DoubleCompletion`), then the Guard's epoch
must equal the Pending Handle's current epoch (otherwise `GuardMismatch`,
never a silent success); on success the buffer comes back in phase `Ready`
and the handle is marked resolved.  Error outcomes leave the handle
unchanged. -/
def resolve (ph : PendingHandle) (g : Guard) :
    Except GuardError GpuBuffer × PendingHandle :=
  if ph.resolved then (Except.error GuardError.DoubleCompletion, ph)
  else if g.epoch = ph.epoch then
    (Except.ok { ph.buf with phase := Phase.Ready },
     { ph with resolved := true })
  else (Except.error GuardError.GuardMismatch, ph)

/-- Modelled from the spec: the operations a caller can attempt on one
buffer's lifecycle (section 4.3). -/
inductive Op where
  | submitT (payloadLen : Nat)
  | submitK
  | resolveOp
  deriving DecidableEq, Repr

/-- Modelled from the spec: the caller-visible protocol state of one buffer,
either held directly (`idle`) or locked inside a Pending Handle with its
Guard (`pending`).  At most one pending operation exists per buffer
(invariant I4 holds by construction of this state space). -/
inductive World where
  | idle (b : GpuBuffer)
  | pending (ph : PendingHandle) (g : Guard)
  deriving DecidableEq, Repr

/-- Modelled from the spec: one protocol step.  Failed submissions and failed
resolutions leave the world unchanged (fail-closed transition function of the
design note in section 9). -/
def applyOp (w : World) (op : Op) : World :=
  match w, op with
  | World.idle b, Op.submitT len =>
      match submit_transfer b len with
      | Except.ok (ph, g) => World.pending ph g
      | Except.error _ => World.idle b
  | World.idle b, Op.submitK =>
      match submit_kernel_use b with
      | Except.ok (ph, g) => World.pending ph g
      | Except.error _ => World.idle b
  | World.idle b, Op.resolveOp => World.idle b
  | World.pending ph g, Op.submitT _ => World.pending ph g
  | World.pending ph g, Op.submitK => World.pending ph g
  | World.pending ph g, Op.resolveOp =>
      match resolve ph g with
      | (Except.ok b, _) => World.idle b
      | (Except.error _, ph2) => World.pending ph2 g

/-- Running a sequence of operations from a starting world. -/
def run (w : World) (ops : List Op) : World :=
  ops.foldl applyOp w

/-- The buffer currently governed by a world state. -/
def worldBuf : World → GpuBuffer
  | World.idle b => b
  | World.pending ph _ => ph.buf

/-- Invariant: whenever a Pending Handle is outstanding, the buffer inside it
is in phase `InFlight`. -/
def pendingInFlight : World → Prop
  | World.idle _ => True
  | World.pending ph _ => ph.buf.phase = Phase.InFlight

lemma applyOp_pendingInFlight (w : World) (op : Op) (h : pendingInFlight w) :
    pendingInFlight (applyOp w op) := by
  cases w with
  | idle b =>
    cases op with
    | submitT len =>
      simp only [applyOp]
      rcases hs : submit_transfer b len with e | pg
      · simp [pendingInFlight]
      · obtain ⟨ph, g⟩ := pg
        unfold submit_transfer at hs
        split at hs
        · exact absurd hs (by simp)
        · split at hs
          · exact absurd hs (by simp)
          · simp only [Except.ok.injEq, Prod.mk.injEq] at hs
            simp [pendingInFlight, ← hs.1]
    | submitK =>
      simp only [applyOp]
      rcases hs : submit_kernel_use b with e | pg
      · simp [pendingInFlight]
      · obtain ⟨ph, g⟩ := pg
        unfold submit_kernel_use at hs
        split at hs
        · exact absurd hs (by simp)
        · simp only [Except.ok.injEq, Prod.mk.injEq] at hs
          simp [pendingInFlight, ← hs.1]
    | resolveOp => simp [applyOp, pendingInFlight]
  | pending ph g =>
    cases op with
    | submitT len => simpa [applyOp, pendingInFlight] using h
    | submitK => simpa [applyOp, pendingInFlight] using h
    | resolveOp =>
      simp only [applyOp]
      rcases hr : resolve ph g with ⟨r, ph2⟩
      cases r with
      | ok b => simp [pendingInFlight]
      | error e =>
        unfold resolve at hr
        split at hr
        · simp only [Prod.mk.injEq] at hr
          simp only [pendingInFlight] at h ⊢
          rw [← hr.2]; exact h
        · split at hr
          · simp only [Prod.mk.injEq] at hr
            exact absurd hr.1 (by simp)
          · simp only [Prod.mk.injEq] at hr
            simp only [pendingInFlight] at h ⊢
            rw [← hr.2]; exact h

lemma run_pendingInFlight (ops : List Op) (w : World) (h : pendingInFlight w) :
    pendingInFlight (run w ops) := by
  induction ops generalizing w with
  | nil => simpa [run] using h
  | cons op ops ih =>
    simp only [run, List.foldl_cons]
    exact ih (applyOp w op) (applyOp_pendingInFlight w op h)

/-! ## Metrics aggregator, from `src/crates/hpc-core/src/metrics.rs` -/

/-- From `metrics.rs` `summary` (line 43): `let mean = v.iter().sum::<u128>()
/ v.len() as u128;` — integer (truncating) division of the sample sum by the
sample count; u128 values embedded as `ℕ`. -/
def metricsMean (v : List Nat) : Nat :=
  v.sum / v.length

/-- From `metrics.rs` `summary` (line 42): `v.sort_unstable();` — the samples
of one name sorted ascending. -/
def sortAsc (v : List Nat) : List Nat :=
  List.insertionSort (fun a b => a ≤ b) v

/-- From `metrics.rs` `summary` (line 44): the p95 index
`((v.len() * 95) / 100).saturating_sub(1)`; `ℕ` subtraction is saturating. -/
def p95Index (n : Nat) : Nat :=
  n * 95 / 100 - 1

/-- From `metrics.rs` `summary` (line 44): `let p95 =
v[((v.len() * 95) / 100).saturating_sub(1)];` taken on the sorted samples. -/
def metricsP95 (v : List Nat) : Nat :=
  (sortAsc v).getD (p95Index v.length) 0

/-- Follows the spec's words (for comparison with `metricsMean`): the
arithmetic mean of the samples, as an exact rational. -/
def specArithMean (v : List Nat) : ℚ :=
  (v.sum : ℚ) / (v.length : ℚ)

/-- The event history feeding the metrics registry: buffer allocations
(incrementing the `ALLOC_BYTES` counter of `metrics.rs` line 27) and recorded
`enqueue_write` calls (pushed into `TIMES` by `record`, `metrics.rs`
lines 19–22), each with the byte count it actually transferred. -/
inductive MEvent where
  | alloc (bytes : Nat)
  | enqueueWrite (bytes : Nat) (latencyUs : Nat)
  deriving DecidableEq, Repr

/-- The cumulative `ALLOC_BYTES` counter over a history: every allocation
adds its size (`metrics.rs` line 27, incremented per allocation). -/
def allocBytesOf : List MEvent → Nat
  | [] => 0
  | MEvent.alloc b :: tr => b + allocBytesOf tr
  | MEvent.enqueueWrite _ _ :: tr => allocBytesOf tr

/-- The recorded `enqueue_write` latencies of a history, in microseconds. -/
def writeLatencies : List MEvent → List Nat
  | [] => []
  | MEvent.alloc _ :: tr => writeLatencies tr
  | MEvent.enqueueWrite _ l :: tr => l :: writeLatencies tr

/-- The bytes actually moved by the recorded `enqueue_write` calls. -/
def writeBytesOf : List MEvent → Nat
  | [] => 0
  | MEvent.alloc _ :: tr => writeBytesOf tr
  | MEvent.enqueueWrite b _ :: tr => b + writeBytesOf tr

/-- From `metrics.rs` `summary` (lines 48–55): the printed `enqueue_write`
throughput `ALLOC_BYTES as f64 / total_us as f64 / 1e3`, where `total_us` is
the sum of the individual `enqueue_write` latencies; f64 arithmetic embedded
as exact rationals. -/
def printedThroughput (tr : List MEvent) : ℚ :=
  (allocBytesOf tr : ℚ) / ((writeLatencies tr).sum : ℚ) / 1000

/-- Follows the spec's words (for comparison with `printedThroughput`): the
sound throughput, total transferred bytes divided by total elapsed time (same
`1e3` unit factor as the printed value). -/
def soundThroughput (totalBytes elapsedUs : Nat) : ℚ :=
  (totalBytes : ℚ) / (elapsedUs : ℚ) / 1000

/-! ## Conflict-simulation harness, from
`src/crates/hpc-core/examples/stm_abort.rs` -/

/-- From `stm_abort.rs` lines 109–116, the body of `XorShift64::next_u32`
acting on the 64-bit state: `x ^= x << 13` (u64 left shift drops the high
bits, hence the `% 2 ^ 64`). -/
def xs1 (x : Nat) : Nat := x ^^^ ((x <<< 13) % 2 ^ 64)

/-- From `stm_abort.rs` line 112: `x ^= x >> 7`. -/
def xs2 (x : Nat) : Nat := x ^^^ (x >>> 7)

/-- From `stm_abort.rs` line 113: `x ^= x << 17` (again modulo `2 ^ 64`). -/
def xs3 (x : Nat) : Nat := x ^^^ ((x <<< 17) % 2 ^ 64)

/-- The full state update of `XorShift64::next_u32` (`stm_abort.rs`
lines 109–115): the three xorshift stages in order. -/
def xorshiftStep (x : Nat) : Nat := xs3 (xs2 (xs1 x))

/-- From `stm_abort.rs` line 108: `XorShift64::new(seed)` stores
`seed.max(1)` — the initial state is clamped to at least 1. -/
def xorshiftNew (seed : Nat) : Nat := max seed 1

/-- From `stm_abort.rs` lines 109–116: `next_u32` advances the state and
returns its upper 32 bits (`(x >> 32) as u32`); result paired with the new
state. -/
def next_u32 (state : Nat) : Nat × Nat :=
  (xorshiftStep state >>> 32, xorshiftStep state)

/-- From `stm_abort.rs` lines 117–120: `next_f32` divides the `next_u32`
draw by `u32::MAX` (`2 ^ 32 - 1`); f32 arithmetic embedded as exact
rationals.  Result paired with the new state. -/
def next_f32 (state : Nat) : ℚ × Nat :=
  (((next_u32 state).1 : ℚ) / ((2 ^ 32 - 1 : Nat) : ℚ), (next_u32 state).2)

/-- From `stm_abort.rs` lines 19–24: the `--conflict` level. -/
inductive Conflict where
  | low
  | med
  | high
  deriving DecidableEq, Repr

/-- From `stm_abort.rs` lines 134–138: the abort probability fixed for the
whole run by the conflict level (`0.02`, `0.15`, `0.40`); the f32 literals
embedded as exact rationals. -/
def pConflict : Conflict → ℚ
  | Conflict.low => 2 / 100
  | Conflict.med => 15 / 100
  | Conflict.high => 40 / 100

/-- The two shared counters of `stm_abort.rs` lines 141–142 (`aborts`,
`commits`). -/
structure Counters where
  aborts : Nat
  commits : Nat
  deriving DecidableEq, Repr

/-- One iteration of the per-thread loop body in `stm_abort.rs` Ops mode
(lines 196–224): one `next_u32` draw for the simulated work duration, then
the conflict sampling `if rng.next_f32() < p_conflict` — the abort branch
increments `aborts`, the other branch increments `commits`.  The decision
depends only on the executing thread's own rng state and the run-constant
probability.  Returns the new rng state, the updated counters, and whether
the operation aborted. -/
def simOp (p : ℚ) (rng : Nat) (c : Counters) : Nat × Counters × Bool :=
  let rng1 := xorshiftStep rng
  let dr := next_f32 rng1
  if dr.1 < p then
    (dr.2, { c with aborts := c.aborts + 1 }, true)
  else
    (dr.2, { c with commits := c.commits + 1 }, false)

/-- The conflict-sampling draw an operation compares against the threshold:
the `next_f32` value taken after the spin-duration `next_u32` draw. -/
def opDraw (rng : Nat) : ℚ :=
  (next_f32 (xorshiftStep rng)).1

/-- A thread executing `k` operations of the Ops-mode loop
(`stm_abort.rs` lines 195–224), threading its rng state and the counters. -/
def runThread (p : ℚ) (rng : Nat) (c : Counters) : Nat → Nat × Counters
  | 0 => (rng, c)
  | k + 1 =>
      let r := simOp p rng c
      runThread p r.1 r.2.1 k

/-- From `stm_abort.rs` lines 155–157 and 171–177: the per-thread operation
quota in Ops mode, `n / t` plus one extra for each of the first `n % t`
threads. -/
def perThreadOps (n t tid : Nat) : Nat :=
  n / t + if tid < n % t then 1 else 0

/-- From `stm_abort.rs` lines 181–184: the deterministic per-thread seed
`cfg.seed ^ (((tid as u64) + 1) << 32) ^ 0x9E37_79B9_7F4A_7C15`. -/
def threadSeed (seed tid : Nat) : Nat :=
  seed ^^^ (((tid + 1) <<< 32) % 2 ^ 64) ^^^ 0x9E3779B97F4A7C15

/-- The whole Ops-mode run (`stm_abort.rs` `main`): every thread performs its
quota against the shared counters; each thread's rng starts from
`XorShift64::new(threadSeed)`. -/
def runAllThreads (p : ℚ) (seed n t : Nat) : Counters :=
  (List.range t).foldl
    (fun c tid =>
      (runThread p (xorshiftNew (threadSeed seed tid)) c (perThreadOps n t tid)).2)
    { aborts := 0, commits := 0 }

/-! ## Theorems for the buffer phase model (C1–C5) -/

/-- C5: the set of phase tags a buffer can carry is exactly the closed set
{Queued, InFlight, Ready}: every value of `Phase` is one of the three
markers, the three are pairwise distinct, and no fourth phase can exist
because the inductive type (the embedding of the sealed `State` trait of
`state.rs`) is closed. -/
theorem phase_tags_closed :
    (∀ p : Phase, p = Phase.Queued ∨ p = Phase.InFlight ∨ p = Phase.Ready) ∧
    Phase.Queued ≠ Phase.InFlight ∧ Phase.Queued ≠ Phase.Ready ∧
    Phase.InFlight ≠ Phase.Ready := by
  refine ⟨fun p => ?_, by decide, by decide, by decide⟩
  cases p
  · exact Or.inl rfl
  · exact Or.inr (Or.inl rfl)
  · exact Or.inr (Or.inr rfl)

/-- C1: for every buffer and every sequence of operations, the raw resource
handle is only obtainable when the buffer's phase is `Ready`: `raw_handle`
succeeds on a `Ready`-phase buffer and fails with `NotReady` whenever the
phase is `Queued` or `InFlight`. -/
theorem raw_handle_only_ready (handle size : Nat) (ops : List Op) :
    let b := worldBuf (run (World.idle (allocate handle size)) ops)
    (b.phase = Phase.Ready → raw_handle b = Except.ok b.handle) ∧
    (b.phase = Phase.Queued ∨ b.phase = Phase.InFlight →
      raw_handle b = Except.error BufferError.NotReady) := by
  intro b
  constructor
  · intro h
    simp [raw_handle, h]
  · rintro (h | h) <;> simp [raw_handle, h]

/-- Witness for C1: a freshly allocated buffer (phase `Queued`) is refused by
`raw_handle`. -/
theorem raw_handle_only_ready_witness :
    raw_handle (worldBuf (run (World.idle (allocate 5 4)) [])) =
      Except.error BufferError.NotReady :=
  (raw_handle_only_ready 5 4 []).2 (Or.inl rfl)

/-- C2: resolving a Guard a second time after a successful resolve fails with
`DoubleCompletion` and leaves the (already resolved) handle unchanged, so the
first resolve's result stands; resolving with a Guard whose epoch does not
match the Pending Handle's current epoch fails with `GuardMismatch` and never
silently succeeds (the handle is unchanged too). -/
theorem resolve_twice_and_mismatch (ph : PendingHandle) (g g2 : Guard)
    (hres : ph.resolved = false) :
    (g.epoch = ph.epoch →
      resolve ph g =
        (Except.ok { ph.buf with phase := Phase.Ready },
         { ph with resolved := true }) ∧
      resolve { ph with resolved := true } g2 =
        (Except.error GuardError.DoubleCompletion,
         { ph with resolved := true })) ∧
    (g.epoch ≠ ph.epoch →
      resolve ph g = (Except.error GuardError.GuardMismatch, ph)) := by
  constructor
  · intro h
    exact ⟨by simp [resolve, hres, h], by simp [resolve]⟩
  · intro h
    simp [resolve, hres, h]

/-- Witness for C2: a concrete resolve succeeds, and resolving the same
handle again with the same Guard fails with `DoubleCompletion` without
changing the state. -/
theorem resolve_twice_and_mismatch_witness :
    resolve ⟨⟨1, 2, Phase.InFlight, 1⟩, 1, false⟩ ⟨1⟩ =
      (Except.ok ⟨1, 2, Phase.Ready, 1⟩,
       ⟨⟨1, 2, Phase.InFlight, 1⟩, 1, true⟩) ∧
    resolve ⟨⟨1, 2, Phase.InFlight, 1⟩, 1, true⟩ ⟨1⟩ =
      (Except.error GuardError.DoubleCompletion,
       ⟨⟨1, 2, Phase.InFlight, 1⟩, 1, true⟩) :=
  (resolve_twice_and_mismatch ⟨⟨1, 2, Phase.InFlight, 1⟩, 1, false⟩ ⟨1⟩ ⟨1⟩
    rfl).1 rfl

/-- C3: against a buffer with an outstanding Pending Handle (reached by any
sequence of operations), both `submit_transfer` and `submit_kernel_use` fail
with `AlreadyPending` before any submission takes place, and the rejected
attempt leaves the protocol state (hence the buffer's phase) unchanged. -/
theorem submit_rejected_already_pending (h s len : Nat) (ops : List Op)
    (ph : PendingHandle) (g : Guard)
    (hw : run (World.idle (allocate h s)) ops = World.pending ph g) :
    submit_transfer ph.buf len = Except.error BufferError.AlreadyPending ∧
    submit_kernel_use ph.buf = Except.error BufferError.AlreadyPending ∧
    applyOp (World.pending ph g) (Op.submitT len) = World.pending ph g ∧
    applyOp (World.pending ph g) Op.submitK = World.pending ph g := by
  have hin : ph.buf.phase = Phase.InFlight := by
    have hp := run_pendingInFlight ops (World.idle (allocate h s)) trivial
    rw [hw] at hp
    exact hp
  refine ⟨?_, ?_, rfl, rfl⟩
  · simp [submit_transfer, hin]
  · simp [submit_kernel_use, hin]

/-- Witness for C3: after one concrete submission the buffer is in flight and
a second submission of either kind is rejected with `AlreadyPending`, leaving
the state unchanged. -/
theorem submit_rejected_already_pending_witness :
    submit_transfer ⟨7, 4, Phase.InFlight, 1⟩ 4 =
      Except.error BufferError.AlreadyPending ∧
    submit_kernel_use ⟨7, 4, Phase.InFlight, 1⟩ =
      Except.error BufferError.AlreadyPending ∧
    applyOp (World.pending ⟨⟨7, 4, Phase.InFlight, 1⟩, 1, false⟩ ⟨1⟩)
        (Op.submitT 4) =
      World.pending ⟨⟨7, 4, Phase.InFlight, 1⟩, 1, false⟩ ⟨1⟩ ∧
    applyOp (World.pending ⟨⟨7, 4, Phase.InFlight, 1⟩, 1, false⟩ ⟨1⟩)
        Op.submitK =
      World.pending ⟨⟨7, 4, Phase.InFlight, 1⟩, 1, false⟩ ⟨1⟩ :=
  submit_rejected_already_pending 7 4 4 [Op.submitT 4]
    ⟨⟨7, 4, Phase.InFlight, 1⟩, 1, false⟩ ⟨1⟩ rfl

/-- C4: for a buffer whose allocated size matches the payload (size 0
included, accepted at allocation), a `submit_transfer` followed by a resolve
of the returned Guard always ends with the buffer in phase `Ready`, for all
payload sizes N in {0, 1, 4096, 1 <<< 22}. -/
theorem submit_resolve_ends_ready (h N : Nat)
    (_hN : N = 0 ∨ N = 1 ∨ N = 4096 ∨ N = 2 ^ 22) :
    (allocate h N).size = N ∧
    (worldBuf (run (World.idle (allocate h N))
        [Op.submitT N, Op.resolveOp])).phase = Phase.Ready := by
  refine ⟨rfl, ?_⟩
  simp [run, applyOp, submit_transfer, allocate, resolve, worldBuf]

/-- Witness for C4: the round trip at the concrete size 4096. -/
theorem submit_resolve_ends_ready_witness :
    (allocate 0 4096).size = 4096 ∧
    (worldBuf (run (World.idle (allocate 0 4096))
        [Op.submitT 4096, Op.resolveOp])).phase = Phase.Ready :=
  submit_resolve_ends_ready 0 4096 (Or.inr (Or.inr (Or.inl rfl)))

/-! ## Theorems for the metrics aggregator (C6, C7) -/

/-- Counterexample for C6 as stated: for the two samples `[1, 2]` the summary
reports `3 / 2 = 1` (truncating u128 division), which is not the arithmetic
mean `3 / 2` of the samples. -/
theorem metrics_mean_not_arith_mean :
    ¬ ((metricsMean [1, 2] : ℚ) = specArithMean [1, 2]) := by
  norm_num [metricsMean, specArithMean]

/-- C6 (amended): for every non-empty collection of recorded timing samples
grouped under one name, the metrics summary reports the floor (integer
division) of the arithmetic mean of those samples, and their 95th percentile
taken at index `(count * 95 / 100) - 1`, floored at 0, of the
ascending-sorted samples — an index that is always in bounds. -/
theorem metrics_mean_floor_p95 (v : List Nat) (hv : v ≠ []) :
    metricsMean v = Nat.floor (specArithMean v) ∧
    p95Index v.length < (sortAsc v).length ∧
    metricsP95 v = (sortAsc v).getD (v.length * 95 / 100 - 1) 0 := by
  have hpos : 0 < v.length := List.length_pos.mpr hv
  refine ⟨?_, ?_, rfl⟩
  · show v.sum / v.length = Nat.floor ((v.sum : ℚ) / (v.length : ℚ))
    rw [Nat.floor_div_nat, Nat.floor_natCast]
  · have h1 : v.length * 95 / 100 ≤ v.length := by
      calc v.length * 95 / 100
          ≤ v.length * 100 / 100 :=
            Nat.div_le_div_right (Nat.mul_le_mul_left _ (by norm_num))
        _ = v.length := by omega
    simp only [sortAsc, List.length_insertionSort, p95Index]
    omega

/-- Witness for C6 (amended): the two samples `[1, 2]`. -/
theorem metrics_mean_floor_p95_witness :
    metricsMean [1, 2] = Nat.floor (specArithMean [1, 2]) ∧
    p95Index (List.length [1, 2]) < (sortAsc [1, 2]).length ∧
    metricsP95 [1, 2] =
      (sortAsc [1, 2]).getD (List.length [1, 2] * 95 / 100 - 1) 0 :=
  metrics_mean_floor_p95 [1, 2] (by decide)

/-- C7: the throughput printed by `summary` for `enqueue_write` divides the
cumulative allocated-bytes counter (over all allocations) by the sum of the
individual `enqueue_write` latencies, and this is not the sound formula:
there is a history of allocations and recorded calls, and an elapsed time at
least as large as the summed latencies, for which the printed value differs
from total transferred bytes over total elapsed time. -/
theorem printed_throughput_not_sound :
    ∃ (tr : List MEvent) (elapsedUs : Nat),
      (writeLatencies tr).sum ≤ elapsedUs ∧
      printedThroughput tr ≠ soundThroughput (writeBytesOf tr) elapsedUs := by
  refine ⟨[MEvent.alloc 100, MEvent.alloc 100, MEvent.enqueueWrite 100 10],
    10, ?_, ?_⟩
  · simp [writeLatencies]
  · norm_num [printedThroughput, soundThroughput, allocBytesOf, writeBytesOf,
      writeLatencies]

/-! ## Theorems for the conflict-simulation harness (C8, C9) -/

/-- C8: every simulated operation aborts if and only if the executing
thread's deterministic `next_f32` draw is strictly below the run-constant
probability fixed by the `--conflict` level (`0.02` low, `0.15` med, `0.40`
high); the decision is a pure function of the thread's own rng state, and
each operation increments exactly one of the abort or commit counters. -/
theorem simOp_abort_characterisation (conflict : Conflict) (rng : Nat)
    (c : Counters) :
    ((simOp (pConflict conflict) rng c).2.2 = true ↔
      opDraw rng < pConflict conflict) ∧
    ((simOp (pConflict conflict) rng c).2.2 = true →
      (simOp (pConflict conflict) rng c).2.1 =
        { c with aborts := c.aborts + 1 }) ∧
    ((simOp (pConflict conflict) rng c).2.2 = false →
      (simOp (pConflict conflict) rng c).2.1 =
        { c with commits := c.commits + 1 }) ∧
    (simOp (pConflict conflict) rng c).2.1.aborts +
        (simOp (pConflict conflict) rng c).2.1.commits =
      c.aborts + c.commits + 1 ∧
    pConflict Conflict.low = 2 / 100 ∧ pConflict Conflict.med = 15 / 100 ∧
    pConflict Conflict.high = 40 / 100 := by
  have hs : simOp (pConflict conflict) rng c =
      if opDraw rng < pConflict conflict then
        ((next_f32 (xorshiftStep rng)).2, { c with aborts := c.aborts + 1 },
          true)
      else
        ((next_f32 (xorshiftStep rng)).2, { c with commits := c.commits + 1 },
          false) := rfl
  by_cases hd : opDraw rng < pConflict conflict
  · rw [hs, if_pos hd]
    refine ⟨by simp [hd], fun _ => rfl, by simp, ?_, rfl, rfl, rfl⟩
    simp only
    omega
  · rw [hs, if_neg hd]
    refine ⟨by simp [hd], by simp, fun _ => rfl, ?_, rfl, rfl, rfl⟩
    simp only
    omega

/-- Witness for C8: one concrete operation increments the counters by exactly
one in total. -/
theorem simOp_abort_characterisation_witness :
    (simOp (pConflict Conflict.low) 1 ⟨0, 0⟩).2.1.aborts +
        (simOp (pConflict Conflict.low) 1 ⟨0, 0⟩).2.1.commits = 0 + 0 + 1 :=
  (simOp_abort_characterisation Conflict.low 1 ⟨0, 0⟩).2.2.2.1

lemma runThread_counter_sum (p : ℚ) (k : Nat) :
    ∀ (rng : Nat) (c : Counters),
      (runThread p rng c k).2.aborts + (runThread p rng c k).2.commits =
        c.aborts + c.commits + k := by
  induction k with
  | zero => intro rng c; simp [runThread]
  | succ k ih =>
    intro rng c
    have hc : (simOp p rng c).2.1.aborts + (simOp p rng c).2.1.commits =
        c.aborts + c.commits + 1 := by
      unfold simOp
      by_cases hd : (next_f32 (xorshiftStep rng)).1 < p
      · simp only [hd, if_pos]
        omega
      · simp only [hd, if_neg, ite_false]
        omega
    have h := ih (simOp p rng c).1 (simOp p rng c).2.1
    show (runThread p (simOp p rng c).1 (simOp p rng c).2.1 k).2.aborts +
        (runThread p (simOp p rng c).1 (simOp p rng c).2.1 k).2.commits =
      c.aborts + c.commits + (k + 1)
    omega

lemma sum_perThreadOps_aux (n t : Nat) (k : Nat) :
    ((List.range k).map (perThreadOps n t)).sum =
      k * (n / t) + min k (n % t) := by
  induction k with
  | zero => simp
  | succ k ih =>
    rw [List.range_succ, List.map_append, List.sum_append, Nat.succ_mul]
    simp only [List.map_cons, List.map_nil, List.sum_cons, List.sum_nil,
      Nat.add_zero, ih, perThreadOps]
    by_cases hk : k < n % t
    · rw [if_pos hk, min_eq_left hk.le,
        min_eq_left (Nat.succ_le_of_lt hk), Nat.succ_eq_add_one]
      ring
    · have hm : n % t ≤ k := Nat.le_of_not_lt hk
      rw [if_neg hk, min_eq_right hm,
        min_eq_right (hm.trans (Nat.le_succ k))]
      ring

lemma sum_perThreadOps (n t : Nat) (ht : 1 ≤ t) :
    ((List.range t).map (perThreadOps n t)).sum = n := by
  rw [sum_perThreadOps_aux n t t]
  have hm : n % t < t := Nat.mod_lt n ht
  rw [min_eq_right hm.le]
  exact Nat.div_add_mod n t

lemma foldl_runThread_counter_sum (p : ℚ) (seed n t : Nat) :
    ∀ (L : List Nat) (c : Counters),
      ((L.foldl (fun c tid =>
          (runThread p (xorshiftNew (threadSeed seed tid)) c
            (perThreadOps n t tid)).2) c).aborts +
       (L.foldl (fun c tid =>
          (runThread p (xorshiftNew (threadSeed seed tid)) c
            (perThreadOps n t tid)).2) c).commits) =
        c.aborts + c.commits + (L.map (perThreadOps n t)).sum := by
  intro L
  induction L with
  | nil => intro c; simp
  | cons tid L ih =>
    intro c
    simp only [List.foldl_cons, List.map_cons, List.sum_cons]
    rw [ih]
    have h := runThread_counter_sum p (perThreadOps n t tid)
      (xorshiftNew (threadSeed seed tid)) c
    omega

/-- C9: in Ops mode with total operation count `n ≥ 1` and `t ≥ 1` threads,
the per-thread quotas — `n / t` per thread plus one extra for each of the
first `n % t` threads — sum to exactly `n`, so after all threads join the
shared abort and commit counters sum to exactly `n`. -/
theorem ops_mode_totals (p : ℚ) (seed n t : Nat) (_hn : 1 ≤ n) (ht : 1 ≤ t) :
    ((List.range t).map (perThreadOps n t)).sum = n ∧
    (runAllThreads p seed n t).aborts + (runAllThreads p seed n t).commits =
      n := by
  have hsum := sum_perThreadOps n t ht
  refine ⟨hsum, ?_⟩
  unfold runAllThreads
  rw [foldl_runThread_counter_sum p seed n t (List.range t)
    { aborts := 0, commits := 0 }]
  simpa using hsum

/-- Witness for C9: three operations over two threads. -/
theorem ops_mode_totals_witness :
    ((List.range 2).map (perThreadOps 3 2)).sum = 3 ∧
    (runAllThreads (pConflict Conflict.low) 1 3 2).aborts +
        (runAllThreads (pConflict Conflict.low) 1 3 2).commits = 3 :=
  ops_mode_totals (pConflict Conflict.low) 1 3 2 (by norm_num) (by norm_num)

/-! ## Theorems for the XorShift64 generator (C10) -/

lemma testBit_true_ne_zero {y i : Nat} (h : y.testBit i = true) : y ≠ 0 := by
  intro h0
  rw [h0, Nat.zero_testBit] at h
  exact Bool.false_ne_true h

lemma testBit_true_lt_64 {x i : Nat} (hlt : x < 2 ^ 64)
    (h : x.testBit i = true) : i < 64 := by
  by_contra hi
  have hx : x < 2 ^ i :=
    lt_of_lt_of_le hlt
      (Nat.pow_le_pow_right (by norm_num) (Nat.le_of_not_lt hi))
  rw [Nat.testBit_lt_two_pow hx] at h
  exact Bool.false_ne_true h

lemma xor_shl_mod_ne_zero {k x : Nat} (hk : 0 < k) (hx : x ≠ 0)
    (hlt : x < 2 ^ 64) : x ^^^ ((x <<< k) % 2 ^ 64) ≠ 0 := by
  have hex : ∃ i, x.testBit i = true := Nat.ne_zero_implies_bit_true hx
  have hi : x.testBit (Nat.find hex) = true := Nat.find_spec hex
  have hmin : ∀ j, j < Nat.find hex → x.testBit j = false := by
    intro j hj
    have hj2 := Nat.find_min hex hj
    exact Bool.eq_false_iff.mpr hj2
  refine testBit_true_ne_zero (i := Nat.find hex) ?_
  rw [Nat.testBit_xor, Nat.testBit_mod_two_pow, Nat.testBit_shiftLeft]
  have hi64 : Nat.find hex < 64 := testBit_true_lt_64 hlt hi
  by_cases hki : k ≤ Nat.find hex
  · have hlow : x.testBit (Nat.find hex - k) = false := hmin _ (by omega)
    simp [hi, hi64, hki, hlow]
  · simp [hi, hi64, hki]

lemma xor_shr_ne_zero {k x : Nat} (hk : 0 < k) (hx : x ≠ 0) :
    x ^^^ (x >>> k) ≠ 0 := by
  obtain ⟨i, hi, hmax⟩ := Nat.exists_most_significant_bit hx
  refine testBit_true_ne_zero (i := i) ?_
  rw [Nat.testBit_xor, Nat.testBit_shiftRight]
  have hhigh : x.testBit (k + i) = false := hmax _ (by omega)
  simp [hi, hhigh]

lemma xor_shl_mod_lt {k x : Nat} (hlt : x < 2 ^ 64) :
    x ^^^ ((x <<< k) % 2 ^ 64) < 2 ^ 64 :=
  Nat.xor_lt_two_pow hlt (Nat.mod_lt _ (Nat.two_pow_pos 64))

lemma xor_shr_lt {k x : Nat} (hlt : x < 2 ^ 64) :
    x ^^^ (x >>> k) < 2 ^ 64 := by
  have h1 : x >>> k ≤ x := by
    rw [Nat.shiftRight_eq_div_pow]
    exact Nat.div_le_self _ _
  exact Nat.xor_lt_two_pow hlt (lt_of_le_of_lt h1 hlt)

lemma xorshiftStep_ne_zero {x : Nat} (hx : x ≠ 0) (hlt : x < 2 ^ 64) :
    xorshiftStep x ≠ 0 ∧ xorshiftStep x < 2 ^ 64 := by
  have h1 : xs1 x ≠ 0 := xor_shl_mod_ne_zero (by norm_num) hx hlt
  have h1l : xs1 x < 2 ^ 64 := xor_shl_mod_lt hlt
  have h2 : xs2 (xs1 x) ≠ 0 := xor_shr_ne_zero (by norm_num) h1
  have h2l : xs2 (xs1 x) < 2 ^ 64 := xor_shr_lt h1l
  exact ⟨xor_shl_mod_ne_zero (by norm_num) h2 h2l, xor_shl_mod_lt h2l⟩

/-- C10: the XorShift64 state is never zero: the constructor clamps every
seed (0 included) to at least 1, the xorshift step maps every non-zero
64-bit state to a non-zero 64-bit state, and hence for every number of steps
the generator never reaches the all-zero fixed point. -/
theorem xorshift_state_never_zero :
    (∀ seed : Nat, 1 ≤ xorshiftNew seed) ∧
    (∀ x : Nat, x ≠ 0 → x < 2 ^ 64 →
      xorshiftStep x ≠ 0 ∧ xorshiftStep x < 2 ^ 64) ∧
    (∀ seed k : Nat, seed < 2 ^ 64 →
      xorshiftStep^[k] (xorshiftNew seed) ≠ 0) := by
  refine ⟨fun seed => le_max_right seed 1,
    fun x hx hlt => xorshiftStep_ne_zero hx hlt, ?_⟩
  intro seed k hseed
  have hinv : ∀ j, xorshiftStep^[j] (xorshiftNew seed) ≠ 0 ∧
      xorshiftStep^[j] (xorshiftNew seed) < 2 ^ 64 := by
    intro j
    induction j with
    | zero =>
      constructor
      · have h1 : 1 ≤ xorshiftNew seed := le_max_right seed 1
        simpa using by omega
      · simp only [Function.iterate_zero, id_eq, xorshiftNew]
        omega
    | succ j ih =>
      rw [Function.iterate_succ_apply']
      exact xorshiftStep_ne_zero ih.1 ih.2
  exact (hinv k).1

/-- Witness for C10: concrete instances of all three components. -/
theorem xorshift_state_never_zero_witness :
    1 ≤ xorshiftNew 5 ∧ (xorshiftStep 1 ≠ 0 ∧ xorshiftStep 1 < 2 ^ 64) ∧
    xorshiftStep^[2] (xorshiftNew 0) ≠ 0 :=
  ⟨xorshift_state_never_zero.1 5,
   xorshift_state_never_zero.2.1 1 (by norm_num) (by norm_num),
   xorshift_state_never_zero.2.2 0 2 (by norm_num)⟩

end SafeRustCL
